import Mathlib

/-!
Verification development for the `aws-sigv4` request-signing library
(sources: `src/sigv4.ts`, `src/utils.ts`, plus the package's facade).

The TypeScript sources are shallowly embedded below:

* JS strings are Lean `String`s; the JS `<` comparison on strings
  (lexicographic over UTF-16 code units) is modelled by `jsLt`.
* JS objects used as string-keyed maps (`Headers`, `QueryParams`) are
  association lists `List (String × String)` in insertion order with
  distinct keys; property assignment is `setHeader`.
* The distinction between an absent property (`undefined`), `null`, and a
  present value — which the validation code in `utils.ts` observes — is
  modelled by `JSVal`.
* The cryptographic primitives (crypto-js `SHA256` / `HmacSHA256` / hex
  encoding) and the node `url` / `JSON` / `Date` facilities are external
  collaborators of the library, not part of its sources; they are
  parameters (`CryptoPrim`, `Externals`) of the embedding.
* `jsToLower` / `jsToUpper` (characterwise ASCII case mapping) model the
  JS case conversions (they agree on ASCII, the domain of every header
  name and method appearing in this development); `String.take 8` models
  `datetime.substr(0, 8)` (they agree on strings without astral
  characters, in particular on timestamps).
-/

namespace Sigv4

/-! ### JS string order: lexicographic comparison of UTF-16 code units -/

/-- The UTF-16 encoding of a single Unicode scalar value, as the list of its
code units (a surrogate pair for astral characters). -/
def utf16Units (c : Char) : List Nat :=
  if c.toNat < 0x10000 then [c.toNat]
  else
    let v := c.toNat - 0x10000
    [0xD800 + v / 0x400, 0xDC00 + v % 0x400]

/-- The UTF-16 code units of a string. -/
def strUtf16 (s : String) : List Nat :=
  s.data.foldr (fun c acc => utf16Units c ++ acc) []

/-- Strict lexicographic order on lists of code units. -/
def ltUnits : List Nat → List Nat → Bool
  | [], [] => false
  | [], _ :: _ => true
  | _ :: _, [] => false
  | a :: as, b :: bs => if a < b then true else if b < a then false else ltUnits as bs

/-- The JS `<` comparison on strings: lexicographic over UTF-16 code units. -/
def jsLt (a b : String) : Bool :=
  ltUnits (strUtf16 a) (strUtf16 b)

/-! ### JS whitespace, `trim` and `replace(\s+, ' ')` -/

/-- The characters matched by the JS `\s` regex class (also the set removed
by `String.prototype.trim`). -/
def isJsSpace (c : Char) : Bool :=
  c.toNat = 0x20 || (0x9 ≤ c.toNat && c.toNat ≤ 0xD) ||
  c.toNat = 0xA0 || c.toNat = 0x1680 ||
  (0x2000 ≤ c.toNat && c.toNat ≤ 0x200A) ||
  c.toNat = 0x2028 || c.toNat = 0x2029 || c.toNat = 0x202F ||
  c.toNat = 0x205F || c.toNat = 0x3000 || c.toNat = 0xFEFF

/-- `value.trim()`: remove leading and trailing JS whitespace. -/
def jsTrim (s : String) : String :=
  String.mk (((s.data.dropWhile isJsSpace).reverse.dropWhile isJsSpace).reverse)

/-- Worker for `jsCollapseWs`: the flag records whether the previous
character belonged to a whitespace run already emitted as one space. -/
def collapseWsAux : List Char → Bool → List Char
  | [], _ => []
  | c :: cs, inRun =>
    if isJsSpace c then
      if inRun then collapseWsAux cs true else ' ' :: collapseWsAux cs true
    else c :: collapseWsAux cs false

/-- `value.replace(/\s+/g, ' ')`: collapse every run of JS whitespace to a
single space. -/
def jsCollapseWs (s : String) : String :=
  String.mk (collapseWsAux s.data false)

/-- JS `toLowerCase`, as the characterwise ASCII case mapping. -/
def jsToLower (s : String) : String :=
  String.mk (s.data.map Char.toLower)

/-- JS `toUpperCase`, as the characterwise ASCII case mapping. -/
def jsToUpper (s : String) : String :=
  String.mk (s.data.map Char.toUpper)

/-! ### JS percent-encoding: `encodeURIComponent`, `encodeURI` -/

/-- The UTF-8 bytes of a Unicode scalar value. -/
def utf8Bytes (c : Char) : List Nat :=
  let v := c.toNat
  if v < 0x80 then [v]
  else if v < 0x800 then [0xC0 + v / 64, 0x80 + v % 64]
  else if v < 0x10000 then [0xE0 + v / 4096, 0x80 + (v / 64) % 64, 0x80 + v % 64]
  else [0xF0 + v / 262144, 0x80 + (v / 4096) % 64, 0x80 + (v / 64) % 64, 0x80 + v % 64]

/-- Uppercase hexadecimal digit, as used by the JS percent-encoders. -/
def hexUpperDigit (n : Nat) : Char :=
  if n < 10 then Char.ofNat (48 + n) else Char.ofNat (55 + n)

/-- Lowercase hexadecimal digit, as produced by JS `toString(16)`. -/
def hexLowerDigit (n : Nat) : Char :=
  if n < 10 then Char.ofNat (48 + n) else Char.ofNat (87 + n)

/-- `%XY` escape of one byte, uppercase hex (the JS encoders' output). -/
def percentByte (b : Nat) : String :=
  String.mk ['%', hexUpperDigit (b / 16), hexUpperDigit (b % 16)]

/-- Characters left unescaped by `encodeURIComponent`:
`A–Z a–z 0–9 - _ . ! ~ * ' ( )`. -/
def uriComponentUnescaped (c : Char) : Bool :=
  (65 ≤ c.toNat && c.toNat ≤ 90) || (97 ≤ c.toNat && c.toNat ≤ 122) ||
  (48 ≤ c.toNat && c.toNat ≤ 57) ||
  [45, 95, 46, 33, 126, 42, 39, 40, 41].contains c.toNat

/-- Characters left unescaped by `encodeURI`: those of `encodeURIComponent`
plus the URI reserved set `; / ? : @ & = + $ ,` and `#`. -/
def uriUnescaped (c : Char) : Bool :=
  uriComponentUnescaped c ||
  [59, 47, 63, 58, 64, 38, 61, 43, 36, 44, 35].contains c.toNat

/-- One character under `encodeURIComponent`. -/
def encodeURIComponentChar (c : Char) : String :=
  if uriComponentUnescaped c then String.mk [c]
  else String.join ((utf8Bytes c).map percentByte)

/-- JS `encodeURIComponent`. -/
def encodeURIComponent (s : String) : String :=
  String.join (s.data.map encodeURIComponentChar)

/-- One character under `encodeURI`. -/
def encodeURIChar (c : Char) : String :=
  if uriUnescaped c then String.mk [c]
  else String.join ((utf8Bytes c).map percentByte)

/-- JS `encodeURI`. -/
def encodeURI (s : String) : String :=
  String.join (s.data.map encodeURIChar)

/-- `utils.ts` `fixedEncodeURIComponent`: `encodeURIComponent` followed by
`.replace(/[!'()*]/g, c => '%' + c.charCodeAt(0).toString(16))` — the four
extra characters (codes 33, 39, 40, 41, 42) become lowercase-hex escapes. -/
def fixedEncodeURIComponent (str : String) : String :=
  String.join ((encodeURIComponent str).data.map (fun c =>
    if [33, 39, 40, 41, 42].contains c.toNat then
      String.mk ['%', hexLowerDigit (c.toNat / 16), hexLowerDigit (c.toNat % 16)]
    else String.mk [c]))

/-! ### JS `Array.prototype.sort` with the source's comparators

The source sorts arrays whose elements carry pairwise-distinct keys
(they come from `Object.keys`), so the comparators below are strict total
orders on the arrays actually sorted and the JS sort result is the unique
sorted permutation; `insertBy`/`sortBy` compute it. -/

/-- Insert `a` before the first element `b` with `lt a b`. -/
def insertBy (lt : α → α → Bool) (a : α) : List α → List α
  | [] => [a]
  | b :: bs => if lt a b then a :: b :: bs else b :: insertBy lt a bs

/-- Insertion sort by a strict comparator. -/
def sortBy (lt : α → α → Bool) : List α → List α
  | [] => []
  | a :: as => insertBy lt a (sortBy lt as)

/-- The comparator of `buildCanonicalQueryString` (`sigv4.ts` lines
110–116), as the predicate “`a` sorts strictly before `b`”: raw name
first, value as tie-break, both under JS `<`. -/
def qpLt (a b : String × String) : Bool :=
  if a.1 = b.1 then jsLt a.2 b.2 else jsLt a.1 b.1

/-- The intermediate record of `buildCanonicalHeaders` (`sigv4.ts` lines
126–131): original-case name, lowercased name, value. -/
structure CHdr where
  oName : String
  name : String
  value : String
deriving DecidableEq

/-- `{ oName: name, name: name.toLowerCase(), value: headers[name] }`. -/
def toCHdr (p : String × String) : CHdr :=
  { oName := p.1, name := jsToLower p.1, value := p.2 }

/-- The comparator of `buildCanonicalHeaders` (`sigv4.ts` lines 132–138):
original-case name first, value as tie-break. -/
def chLt (a b : CHdr) : Bool :=
  if a.oName = b.oName then jsLt a.value b.value else jsLt a.oName b.oName

/-! ### The Canonicalizer (`sigv4.ts` lines 85–151) -/

/-- `buildCanonicalUri`: `null` or empty path canonicalizes to `/`, then
`encodeURI` is applied. -/
def buildCanonicalUri (path : Option String) : String :=
  let p := match path with
    | none => "/"
    | some s => if s = "" then "/" else s
  encodeURI p

/-- `buildCanonicalQueryString`: empty for no params; otherwise the pairs
sorted by the raw-name/raw-value comparator, each rendered as
`name=fixedEncodeURIComponent(value)`, joined with `&`. -/
def buildCanonicalQueryString (queryParams : List (String × String)) : String :=
  if queryParams.length < 1 then ""
  else
    let sorted := sortBy qpLt queryParams
    String.intercalate "&" (sorted.map (fun param => param.1 ++ "=" ++ fixedEncodeURIComponent param.2))

/-- `buildCanonicalHeaders`: map each entry to its `CHdr` record, sort by
original-case name (value tie-break), then fold the lines
`lowername:normalizedvalue\n`. -/
def buildCanonicalHeaders (headers : List (String × String)) : String :=
  let canonicalHeaders := sortBy chLt (headers.map toCHdr)
  canonicalHeaders.foldl
    (fun prev curr => prev ++ curr.name ++ ":" ++ jsCollapseWs (jsTrim curr.value) ++ "\n") ""

/-- `buildCanonicalSignedHeaders`: lowercased names, default JS sort
(code-unit lexicographic), joined with `;`. -/
def buildCanonicalSignedHeaders (headers : List (String × String)) : String :=
  String.intercalate ";" (sortBy jsLt (headers.map (fun p => jsToLower p.1)))

/-! ### External collaborators -/

/-- The crypto-js primitives consumed through `utils.ts` (`hash`, `hmac`,
`hexEncode`). `W` is the digest type (crypto-js `WordArray`); the key of an
HMAC is either a string (`hmacS`) or a previously derived digest
(`hmacW`), matching the `string | WordArray` overload of `utils.hmac`. -/
structure CryptoPrim (W : Type) where
  hash : String → W
  hmacS : String → String → W
  hmacW : W → String → W
  hexEncode : W → String

/-- The node facilities `buildSigningParts` consumes: `url.parse(e).hostname`,
`url.parse(e + p).pathname` (which may be `null`), `JSON.stringify` on the
request body, and the generated compact ISO timestamp taken from
`new Date()` when the caller supplied no date header. -/
structure Externals where
  hostnameOf : String → String
  pathnameOf : String → Option String
  jsonStringify : String → String
  nowTimestamp : String

/-! ### JS property values: `undefined` vs `null` vs present -/

/-- A JS property slot: absent (`undefined`), `null`, or holding a value.
`assertProps` rejects only `undef`; `assertValue` replaces both `undef`
and `null` with a default. -/
inductive JSVal (α : Type) where
  | undef : JSVal α
  | null : JSVal α
  | val : α → JSVal α
deriving DecidableEq

/-- `typeof config[prop] === 'undefined'`. -/
def JSVal.isUndef : JSVal α → Bool
  | .undef => true
  | _ => false

/-- `assertValue`'s effect: `config[prop] == null` (loose, catching both
`undefined` and `null`) is replaced by the default. -/
def JSVal.orDefault : JSVal α → α → α
  | .val a, _ => a
  | _, d => d

/-- Read a validated string-valued field. JS itself would coerce or throw
on a non-string value here; the development only evaluates these fields
when they hold actual strings (`.val`). -/
def JSVal.strD : JSVal String → String
  | .val s => s
  | _ => ""

/-! ### The configuration object (`ISignRequestConfig`) -/

/-- `ISignRequestConfig`: every field is a JS property slot, so that the
validation behavior on absent/`null` fields is observable. `data` holds
the raw body value (serialized through `Externals.jsonStringify`). -/
structure SignConfig where
  method : JSVal String
  endpoint : JSVal String
  path : JSVal String
  headers : JSVal (List (String × String))
  params : JSVal (List (String × String))
  data : JSVal String
  region : JSVal String
  accessKey : JSVal String
  secretKey : JSVal String
  sessionToken : JSVal String
  serviceName : JSVal String
deriving DecidableEq

/-- Lookup used by `assertProps` over the six required property names. -/
def propIsUndef (cfg : SignConfig) (p : String) : Bool :=
  if p = "method" then cfg.method.isUndef
  else if p = "path" then cfg.path.isUndef
  else if p = "region" then cfg.region.isUndef
  else if p = "endpoint" then cfg.endpoint.isUndef
  else if p = "accessKey" then cfg.accessKey.isUndef
  else if p = "secretKey" then cfg.secretKey.isUndef
  else false

/-- The property list passed to `assertProps` in `buildSigningParts`
(`sigv4.ts` line 42), in source order. -/
def requiredProps : List String :=
  ["method", "path", "region", "endpoint", "accessKey", "secretKey"]

/-- `utils.ts` `assertProps`: throw on the first property whose value is
`undefined`, with the source's exact message. -/
def assertProps (isU : String → Bool) : List String → Except String Unit
  | [] => .ok ()
  | p :: ps =>
    if isU p then .error ("[SigV4]: missing config property \x27" ++ p ++ "\x27")
    else assertProps isU ps

/-- The first required property that is `undefined` on `cfg`, if any. -/
def findMissingProp (cfg : SignConfig) : Option String :=
  requiredProps.find? (propIsUndef cfg)

/-! ### Header-object mutation -/

/-- JS property assignment `headers[k] = v` on a string-keyed object:
overwrite in place if the (case-sensitive) key exists, else append. -/
def setHeader (hs : List (String × String)) (k v : String) : List (String × String) :=
  if hs.any (fun p => p.1 == k) then hs.map (fun p => if p.1 == k then (k, v) else p)
  else hs ++ [(k, v)]

/-! ### Protocol constants (`sigv4.ts` lines 23–29) -/

def AWS_SHA_256 : String := "AWS4-HMAC-SHA256"

def AWS4_REQUEST : String := "aws4_request"

def AWS4 : String := "AWS4"

def X_AMZ_DATE : String := "x-amz-date"

def X_AMZ_SECURITY_TOKEN : String := "x-amz-security-token"

def AUTHORIZATION : String := "Authorization"

def HOST : String := "Host"

/-! ### Remaining pipeline pieces (`sigv4.ts` lines 88–191) -/

/-- `buildHashedPayload`: lowercase hex SHA-256 of the payload. -/
def buildHashedPayload {W : Type} (P : CryptoPrim W) (payload : String) : String :=
  jsToLower (P.hexEncode (P.hash payload))

/-- `buildCanonicalRequest`: the six newline-joined components. -/
def buildCanonicalRequest {W : Type} (P : CryptoPrim W) (method : String)
    (path : Option String) (headers : List (String × String))
    (queryParams : List (String × String)) (payload : String) : String :=
  jsToUpper method ++ "\n" ++
    buildCanonicalUri path ++ "\n" ++
    buildCanonicalQueryString queryParams ++ "\n" ++
    buildCanonicalHeaders headers ++ "\n" ++
    buildCanonicalSignedHeaders headers ++ "\n" ++
    buildHashedPayload P payload

/-- `buildCredentialScope`: `date8/region/service/aws4_request`. -/
def buildCredentialScope (datetime region service : String) : String :=
  datetime.take 8 ++ "/" ++ region ++ "/" ++ service ++ "/" ++ AWS4_REQUEST

/-- `hashCanonicalRequest`: lowercase hex SHA-256 of the canonical request. -/
def hashCanonicalRequest {W : Type} (P : CryptoPrim W) (request : String) : String :=
  jsToLower (P.hexEncode (P.hash request))

/-- `buildStringToSign`. -/
def buildStringToSign {W : Type} (P : CryptoPrim W)
    (datetime credentialScope canonicalRequest : String) : String :=
  AWS_SHA_256 ++ "\n" ++ datetime ++ "\n" ++ credentialScope ++ "\n" ++
    hashCanonicalRequest P canonicalRequest

/-- `buildSigningKey`: the 4-stage HMAC-SHA256 chain. -/
def buildSigningKey {W : Type} (P : CryptoPrim W)
    (secretKey datetime region service : String) : W :=
  let kDate := P.hmacS (AWS4 ++ secretKey) (datetime.take 8)
  let kRegion := P.hmacW kDate region
  let kService := P.hmacW kRegion service
  P.hmacW kService AWS4_REQUEST

/-- `buildSignature`: hex-encoded HMAC of the string to sign. -/
def buildSignature {W : Type} (P : CryptoPrim W) (key : W) (stringToSign : String) : String :=
  P.hexEncode (P.hmacW key stringToSign)

/-- `buildAuthorizationHeader`. -/
def buildAuthorizationHeader (accessKey credentialScope : String)
    (headers : List (String × String)) (signature : String) : String :=
  AWS_SHA_256 ++ " Credential=" ++ accessKey ++ "/" ++ credentialScope ++
    ", SignedHeaders=" ++ buildCanonicalSignedHeaders headers ++
    ", Signature=" ++ signature

/-! ### The Orchestrator (`buildSigningParts`, `sigv4.ts` lines 40–83)

The source mutates `config` in place; the embedding threads the header
list functionally. Each step of the mutation sequence is a named
definition so that theorems can speak about the intermediate states; the
sequence (date, host, security token, authorization) and every computation
match the source line by line. -/

/-- `config.headers` after `assertValue(config, 'headers', {})`. -/
def resolvedHeaders0 (cfg : SignConfig) : List (String × String) :=
  cfg.headers.orDefault []

/-- `config.params` after `assertValue(config, 'params', {})`. -/
def resolvedParams (cfg : SignConfig) : List (String × String) :=
  cfg.params.orDefault []

/-- `config.serviceName` after `assertValue(config, 'serviceName', 'execute-api')`. -/
def resolvedService (cfg : SignConfig) : String :=
  cfg.serviceName.orDefault "execute-api"

/-- `Object.keys(config.headers).find(val => val.toLowerCase() === X_AMZ_DATE)`,
returning the matching entry. -/
def findDateHeader (hs : List (String × String)) : Option (String × String) :=
  hs.find? (fun p => jsToLower p.1 == X_AMZ_DATE)

/-- The timestamp used for signing: the caller's date-header value if one
exists (case-insensitive lookup), else the generated timestamp. -/
def resolvedDatetime (E : Externals) (cfg : SignConfig) : String :=
  match findDateHeader (resolvedHeaders0 cfg) with
  | some p => p.2
  | none => E.nowTimestamp

/-- The headers after the date-header step (`sigv4.ts` lines 47–54). -/
def headersWithDate (E : Externals) (cfg : SignConfig) : List (String × String) :=
  match findDateHeader (resolvedHeaders0 cfg) with
  | some _ => resolvedHeaders0 cfg
  | none => setHeader (resolvedHeaders0 cfg) X_AMZ_DATE E.nowTimestamp

/-- `getPath(config.endpoint, config.path)`: the pathname of the parsed
`endpoint + path`. -/
def resolvedPath (E : Externals) (cfg : SignConfig) : Option String :=
  E.pathnameOf (cfg.endpoint.strD ++ cfg.path.strD)

/-- The headers after host injection and the optional security-token
injection (`sigv4.ts` lines 58–62) — the set the canonical request and
the authorization header are computed over. -/
def preAuthHeaders (E : Externals) (cfg : SignConfig) : List (String × String) :=
  let h2 := setHeader (headersWithDate E cfg) HOST (E.hostnameOf cfg.endpoint.strD)
  match cfg.sessionToken with
  | .val t => setHeader h2 X_AMZ_SECURITY_TOKEN t
  | _ => h2

/-- `config.data = config.data != null ? JSON.stringify(config.data) : ''`. -/
def resolvedPayload (E : Externals) (cfg : SignConfig) : String :=
  match cfg.data with
  | .val d => E.jsonStringify d
  | _ => ""

/-- The result record (`ISigningParts`, minus the `config` back-pointer,
whose `headers` field is the same object as the returned `headers`). -/
structure SigningParts where
  headers : List (String × String)
  authHeader : String
  signature : String
  canonicalRequest : String
  stringToSign : String
deriving DecidableEq

/-- The body of `buildSigningParts` after validation has passed
(`sigv4.ts` lines 47–82): the SigV4 pipeline over the injected headers,
ending with the authorization header written into the header set. -/
def signingPartsOf {W : Type} (P : CryptoPrim W) (E : Externals)
    (cfg : SignConfig) : SigningParts :=
  let datetime := resolvedDatetime E cfg
  let headersFin := preAuthHeaders E cfg
  let canonicalRequest := buildCanonicalRequest P cfg.method.strD (resolvedPath E cfg)
    headersFin (resolvedParams cfg) (resolvedPayload E cfg)
  let credentialScope := buildCredentialScope datetime cfg.region.strD (resolvedService cfg)
  let stringToSign := buildStringToSign P datetime credentialScope canonicalRequest
  let signingKey := buildSigningKey P cfg.secretKey.strD datetime cfg.region.strD (resolvedService cfg)
  let signature := buildSignature P signingKey stringToSign
  let authHeader := buildAuthorizationHeader cfg.accessKey.strD credentialScope headersFin signature
  { headers := setHeader headersFin AUTHORIZATION authHeader,
    authHeader := authHeader,
    signature := signature,
    canonicalRequest := canonicalRequest,
    stringToSign := stringToSign }

/-- `buildSigningParts`: validation, header injection, then the SigV4
pipeline; the thrown validation string becomes `Except.error`. -/
def buildSigningParts {W : Type} (P : CryptoPrim W) (E : Externals)
    (cfg : SignConfig) : Except String SigningParts :=
  match assertProps (propIsUndef cfg) requiredProps with
  | .error e => .error e
  | .ok _ => .ok (signingPartsOf P E cfg)

/-- The facade `sign` of the package entry point: just the final headers. -/
def sign {W : Type} (P : CryptoPrim W) (E : Externals) (cfg : SignConfig) :
    Except String (List (String × String)) :=
  (buildSigningParts P E cfg).map (fun parts => parts.headers)

/-- Case-insensitive header membership: is there an entry whose lowercased
name equals `n` (itself lowercase)? -/
def hasHeaderCI (hs : List (String × String)) (n : String) : Bool :=
  hs.any (fun p => jsToLower p.1 == n)

/-! ## Infrastructure lemmas -/

theorem ltUnits_asymm : ∀ xs ys : List Nat, ltUnits xs ys = true → ltUnits ys xs = false
  | [], [] => by simp [ltUnits]
  | [], _ :: _ => by simp [ltUnits]
  | _ :: _, [] => by simp [ltUnits]
  | x :: xs, y :: ys => by
    intro h
    simp only [ltUnits] at h ⊢
    rcases Nat.lt_trichotomy x y with hxy | hxy | hxy
    · simp [hxy, Nat.lt_asymm hxy]
    · subst hxy
      simp only [Nat.lt_irrefl, if_false] at h ⊢
      exact ltUnits_asymm xs ys h
    · simp [hxy, Nat.lt_asymm hxy] at h

theorem ltUnits_trans : ∀ xs ys zs : List Nat,
    ltUnits xs ys = true → ltUnits ys zs = true → ltUnits xs zs = true
  | [], [], _ => by simp [ltUnits]
  | [], _ :: _, [] => by intro _ h2; simp [ltUnits] at h2
  | [], _ :: _, _ :: _ => by simp [ltUnits]
  | _ :: _, [], _ => by simp [ltUnits]
  | _ :: _, _ :: _, [] => by intro _ h2; simp [ltUnits] at h2
  | x :: xs, y :: ys, z :: zs => by
    intro h1 h2
    simp only [ltUnits] at h1 h2 ⊢
    rcases Nat.lt_trichotomy x y with hxy | hxy | hxy
    · rcases Nat.lt_trichotomy y z with hyz | hyz | hyz
      · simp [Nat.lt_trans hxy hyz]
      · subst hyz; simp [hxy]
      · simp [hyz, Nat.lt_asymm hyz] at h2
    · subst hxy
      rcases Nat.lt_trichotomy x z with hxz | hxz | hxz
      · simp [hxz]
      · subst hxz
        simp only [Nat.lt_irrefl, if_false] at h1 h2 ⊢
        exact ltUnits_trans xs ys zs h1 h2
      · simp only [Nat.lt_irrefl, if_false] at h1
        simp [hxz, Nat.lt_asymm hxz] at h2
    · simp [hxy, Nat.lt_asymm hxy] at h1

theorem jsLt_asymm {a b : String} (h : jsLt a b = true) : jsLt b a = false :=
  ltUnits_asymm _ _ h

theorem jsLt_trans {a b c : String} (h1 : jsLt a b = true) (h2 : jsLt b c = true) :
    jsLt a c = true :=
  ltUnits_trans _ _ _ h1 h2

theorem keyedLt_asymm {a1 a2 b1 b2 : String}
    (h : (if a1 = b1 then jsLt a2 b2 else jsLt a1 b1) = true) :
    (if b1 = a1 then jsLt b2 a2 else jsLt b1 a1) = false := by
  by_cases h1 : a1 = b1
  · subst h1
    rw [if_pos rfl] at h ⊢
    exact jsLt_asymm h
  · rw [if_neg h1] at h
    rw [if_neg (fun hh => h1 hh.symm)]
    exact jsLt_asymm h

theorem keyedLt_trans {a1 a2 b1 b2 c1 c2 : String}
    (h1 : (if a1 = b1 then jsLt a2 b2 else jsLt a1 b1) = true)
    (h2 : (if b1 = c1 then jsLt b2 c2 else jsLt b1 c1) = true) :
    (if a1 = c1 then jsLt a2 c2 else jsLt a1 c1) = true := by
  by_cases hab : a1 = b1 <;> by_cases hbc : b1 = c1
  · subst hab; subst hbc
    rw [if_pos rfl] at h1 h2 ⊢
    exact jsLt_trans h1 h2
  · subst hab
    rw [if_neg hbc] at h2 ⊢
    exact h2
  · subst hbc
    rw [if_neg hab] at h1 ⊢
    exact h1
  · rw [if_neg hab] at h1
    rw [if_neg hbc] at h2
    by_cases hac : a1 = c1
    · subst hac
      have hf := jsLt_asymm h1
      simp [hf] at h2
    · rw [if_neg hac]
      exact jsLt_trans h1 h2

theorem qpLt_asymm {a b : String × String} (h : qpLt a b = true) : qpLt b a = false :=
  keyedLt_asymm h

theorem qpLt_trans {a b c : String × String} (h1 : qpLt a b = true)
    (h2 : qpLt b c = true) : qpLt a c = true :=
  keyedLt_trans h1 h2

theorem chLt_asymm {a b : CHdr} (h : chLt a b = true) : chLt b a = false :=
  keyedLt_asymm h

theorem chLt_trans {a b c : CHdr} (h1 : chLt a b = true) (h2 : chLt b c = true) :
    chLt a c = true :=
  keyedLt_trans h1 h2

theorem perm_insertBy (lt : α → α → Bool) (a : α) :
    ∀ l : List α, (insertBy lt a l).Perm (a :: l)
  | [] => List.Perm.refl _
  | b :: bs => by
    simp only [insertBy]
    split
    · exact List.Perm.refl _
    · exact (((perm_insertBy lt a bs).cons b).trans (List.Perm.swap a b bs))

theorem perm_sortBy (lt : α → α → Bool) : ∀ l : List α, (sortBy lt l).Perm l
  | [] => List.Perm.refl _
  | a :: as =>
    (perm_insertBy lt a (sortBy lt as)).trans ((perm_sortBy lt as).cons a)

theorem pairwise_insertBy {lt : α → α → Bool}
    (hasym : ∀ a b, lt a b = true → lt b a = false)
    (htrans : ∀ a b c, lt a b = true → lt b c = true → lt a c = true)
    (a : α) : ∀ l : List α, l.Pairwise (fun x y => lt y x = false) →
      (insertBy lt a l).Pairwise (fun x y => lt y x = false)
  | [], _ => by simp [insertBy]
  | b :: bs, h => by
    rw [List.pairwise_cons] at h
    obtain ⟨hb, hbs⟩ := h
    simp only [insertBy]
    split_ifs with hab
    · refine List.pairwise_cons.mpr ⟨?_, List.pairwise_cons.mpr ⟨hb, hbs⟩⟩
      intro y hy
      rcases List.mem_cons.mp hy with rfl | hy
      · exact hasym a y hab
      · cases hya : lt y a with
        | false => rfl
        | true =>
          have hyb := htrans y a b hya hab
          simp [hb y hy] at hyb
    · refine List.pairwise_cons.mpr ⟨?_, pairwise_insertBy hasym htrans a bs hbs⟩
      intro y hy
      rcases List.mem_cons.mp ((perm_insertBy lt a bs).mem_iff.mp hy) with rfl | hy
      · simpa using hab
      · exact hb y hy

theorem pairwise_sortBy {lt : α → α → Bool}
    (hasym : ∀ a b, lt a b = true → lt b a = false)
    (htrans : ∀ a b c, lt a b = true → lt b c = true → lt a c = true) :
    ∀ l : List α, (sortBy lt l).Pairwise (fun x y => lt y x = false)
  | [] => List.Pairwise.nil
  | a :: as =>
    pairwise_insertBy hasym htrans a (sortBy lt as) (pairwise_sortBy hasym htrans as)

theorem foldl_append_str : ∀ (l : List String) (x : String),
    l.foldl (fun a b => a ++ b) x = x ++ l.foldl (fun a b => a ++ b) ""
  | [], x => by simp
  | s :: ss, x => by
    simp only [List.foldl]
    rw [foldl_append_str ss (x ++ s), foldl_append_str ss ("" ++ s)]
    simp [String.append_assoc]

theorem join_cons (s : String) (l : List String) :
    String.join (s :: l) = s ++ String.join l := by
  show (s :: l).foldl (fun a b => a ++ b) "" = s ++ l.foldl (fun a b => a ++ b) ""
  simp only [List.foldl]
  rw [foldl_append_str l ("" ++ s)]
  simp

theorem foldl_lines_eq_join (f : α → String) : ∀ l : List α,
    l.foldl (fun prev curr => prev ++ f curr) "" = String.join (l.map f)
  | [] => rfl
  | c :: cs => by
    simp only [List.foldl, List.map, join_cons]
    have hgen : ∀ (l : List α) (x : String),
        l.foldl (fun prev curr => prev ++ f curr) x = x ++ String.join (l.map f) := by
      intro l
      induction l with
      | nil => intro x; simp [String.join]
      | cons d ds ih =>
        intro x
        simp only [List.foldl, List.map, join_cons]
        rw [ih (x ++ f d), String.append_assoc]
    rw [hgen cs ("" ++ f c)]
    simp

theorem assertProps_eq (isU : String → Bool) : ∀ l : List String,
    assertProps isU l = match l.find? isU with
      | none => .ok ()
      | some p => .error ("[SigV4]: missing config property \x27" ++ p ++ "\x27")
  | [] => rfl
  | p :: ps => by
    simp only [assertProps, List.find?_cons]
    cases hp : isU p with
    | true => simp
    | false => simpa using assertProps_eq isU ps

theorem key_of_overwrite (k v : String) (p : String × String) :
    ((if p.1 == k then (k, v) else p)).1 = p.1 := by
  split_ifs with h
  · exact (eq_of_beq h).symm
  · rfl

theorem hasHeaderCI_setHeader (hs : List (String × String)) (k v n : String) :
    hasHeaderCI (setHeader hs k v) n = (hasHeaderCI hs n || (jsToLower k == n)) := by
  unfold setHeader hasHeaderCI
  split_ifs with hk
  · have hmap : ∀ l : List (String × String),
        (l.map (fun p => if p.1 == k then (k, v) else p)).any (fun p => jsToLower p.1 == n) =
          l.any (fun p => jsToLower p.1 == n) := by
      intro l
      induction l with
      | nil => rfl
      | cons q qs ih =>
        simp only [List.map_cons, List.any_cons, ih]
        rw [key_of_overwrite k v q]
    rw [hmap hs]
    cases hkn : (jsToLower k == n) with
    | false => simp
    | true =>
      obtain ⟨p, hp, hpk⟩ := List.any_eq_true.mp hk
      have hp1 : p.1 = k := eq_of_beq hpk
      have : hs.any (fun p => jsToLower p.1 == n) = true :=
        List.any_eq_true.mpr ⟨p, hp, by rw [hp1]; exact hkn⟩
      simp [this]
  · rw [List.any_append]
    simp

theorem buildSigningParts_eq_ok {W : Type} (P : CryptoPrim W) (E : Externals)
    {cfg : SignConfig} (h : findMissingProp cfg = none) :
    buildSigningParts P E cfg = .ok (signingPartsOf P E cfg) := by
  unfold buildSigningParts
  rw [assertProps_eq]
  unfold findMissingProp at h
  rw [h]

/-! ## Concrete fixtures for witness evaluations

A trivial digest algebra and stub node facilities; they instantiate the
external-collaborator parameters when a theorem is evaluated at a
concrete input. -/

/-- A concrete digest algebra over `String` tags. -/
def tagCrypto : CryptoPrim String :=
  { hash := fun s => "sha256(" ++ s ++ ")",
    hmacS := fun k m => "hmac(" ++ k ++ "|" ++ m ++ ")",
    hmacW := fun k m => "hmac(" ++ k ++ "|" ++ m ++ ")",
    hexEncode := fun w => "hex(" ++ w ++ ")" }

/-- Stub node facilities for concrete evaluations. -/
def tagExternals : Externals :=
  { hostnameOf := fun _ => "example.amazonaws.com",
    pathnameOf := fun _ => some "/",
    jsonStringify := fun s => s,
    nowTimestamp := "20150830T123600Z" }

/-- A fully valid configuration (all six required fields present). -/
def validConfig : SignConfig :=
  { method := .val "GET",
    endpoint := .val "http://example.amazonaws.com",
    path := .val "/",
    headers := .val [("x-amz-date", "20150830T123600Z")],
    params := .undef,
    data := .undef,
    region := .val "us-east-1",
    accessKey := .val "AKIDEXAMPLE",
    secretKey := .val "wJalrXUtnFEMI/K7MDENG+bPxRfiCYEXAMPLEKEY",
    sessionToken := .undef,
    serviceName := .val "service" }

/-- `validConfig` with `secretKey` absent. -/
def missingSecretConfig : SignConfig :=
  { validConfig with secretKey := .undef }

/-- `validConfig` with an empty-string `secretKey`. -/
def emptySecretConfig : SignConfig :=
  { validConfig with secretKey := .val "" }

/-- `validConfig` with a `null` `secretKey`. -/
def nullSecretConfig : SignConfig :=
  { validConfig with secretKey := .null }

/-- `validConfig` with a caller-supplied security-token header but no
`sessionToken` field. -/
def tokenHeaderConfig : SignConfig :=
  { validConfig with
    headers := .val [("x-amz-security-token", "tok0"), ("x-amz-date", "20150830T123600Z")] }

/-! ## The claims -/

/-- Claim C2: for every secretKey, timestamp, region and service, the
signing key returned by `buildSigningKey` is the 4-stage HMAC-SHA256
chain `kDate = HMAC('AWS4' + secretKey, first 8 characters of timestamp)`,
`kRegion = HMAC(kDate, region)`, `kService = HMAC(kRegion, service)`,
`kSigning = HMAC(kService, 'aws4_request')`, each stage's output the key
of the next, with `kSigning` returned. -/
theorem c2_signing_key_chain {W : Type} (P : CryptoPrim W)
    (secretKey timestamp region service : String) :
    ∃ kDate kRegion kService,
      kDate = P.hmacS ("AWS4" ++ secretKey) (timestamp.take 8) ∧
      kRegion = P.hmacW kDate region ∧
      kService = P.hmacW kRegion service ∧
      buildSigningKey P secretKey timestamp region service = P.hmacW kService "aws4_request" :=
  ⟨_, _, _, rfl, rfl, rfl, rfl⟩

/-- Claim C3: the credential scope is
`(first 8 characters of the timestamp) + '/' + region + '/' + service +
'/aws4_request'`, and the string to sign is
`'AWS4-HMAC-SHA256' + '\n' + timestamp + '\n' + credentialScope + '\n' +
lowercase hex SHA-256 of the canonical request` (the digest is rendered
through the external hex encoder and lowercased, as the source does). -/
theorem c3_scope_and_string_to_sign {W : Type} (P : CryptoPrim W)
    (timestamp region service canonicalRequest : String) :
    buildCredentialScope timestamp region service =
      timestamp.take 8 ++ "/" ++ region ++ "/" ++ service ++ "/aws4_request" ∧
    buildStringToSign P timestamp (buildCredentialScope timestamp region service)
        canonicalRequest =
      "AWS4-HMAC-SHA256" ++ "\n" ++ timestamp ++ "\n" ++
        buildCredentialScope timestamp region service ++ "\n" ++
        jsToLower (P.hexEncode (P.hash canonicalRequest)) := by
  constructor
  · show timestamp.take 8 ++ "/" ++ region ++ "/" ++ service ++ "/" ++ AWS4_REQUEST = _
    rw [String.append_assoc]
    rfl
  · rfl

/-- Claim C7: the canonical URI is `/` for an absent (`null`) or empty
path, and otherwise the path percent-encoded character by character by
`encodeURI`, which leaves `/` (and writes a space as `%20`). -/
theorem c7_canonical_uri :
    buildCanonicalUri none = "/" ∧
    buildCanonicalUri (some "") = "/" ∧
    (∀ p : String, p ≠ "" →
      buildCanonicalUri (some p) = String.join (p.data.map encodeURIChar)) ∧
    encodeURIChar (Char.ofNat 47) = "/" ∧
    encodeURIChar (Char.ofNat 32) = "%20" := by
  refine ⟨rfl, rfl, ?_, rfl, rfl⟩
  intro p hp
  show encodeURI (if p = "" then "/" else p) = _
  rw [if_neg hp]
  rfl

/-- Witness for C7 at the concrete path `a b/c`. -/
theorem c7_canonical_uri_witness :
    buildCanonicalUri (some "a b/c") = String.join (("a b/c").data.map encodeURIChar) :=
  c7_canonical_uri.2.2.1 "a b/c" (by decide)

/-- Counterexample to claim C4 as stated: the canonical query string does
NOT percent-encode parameter names — for params `{"a b": "c"}` the output
is `a b=c`, not the `a%20b=c` that name-and-value encoding would give. -/
theorem c4_counterexample_name_not_encoded :
    buildCanonicalQueryString [("a b", "c")] = "a b=c" ∧
    fixedEncodeURIComponent "a b" ++ "=" ++ fixedEncodeURIComponent "c" = "a%20b=c" ∧
    ("a b=c" : String) ≠ "a%20b=c" := by
  refine ⟨rfl, rfl, by decide⟩

/-- Claim C4 as amended: each segment of the canonical query string is
`rawName=encodedValue` — only the VALUE is percent-encoded (with the
extended rule escaping `! ' ( ) *` to two-digit hex), the name appears
raw; an empty params mapping yields the empty string. -/
theorem c4_amended_value_only_encoding :
    (∀ qs : List (String × String),
      buildCanonicalQueryString qs =
        (if qs.isEmpty then ""
         else String.intercalate "&" ((sortBy qpLt qs).map
           (fun p => p.1 ++ "=" ++ fixedEncodeURIComponent p.2)))) ∧
    fixedEncodeURIComponent
        (String.mk [Char.ofNat 33, Char.ofNat 39, Char.ofNat 40, Char.ofNat 41, Char.ofNat 42]) =
      "%21%27%28%29%2a" ∧
    buildCanonicalQueryString [] = "" := by
  refine ⟨?_, rfl, rfl⟩
  intro qs
  cases qs with
  | nil => rfl
  | cons q qs => rfl

/-- Claim C5: the canonical query string joins its `name=value` segments
with `&` in an order that is a permutation of the params sorted ascending
by raw name under the JS code-unit `<`, tie-broken by raw value; in
particular `{"a": "1", "A": "2"}` gives exactly `A=2&a=1`. -/
theorem c5_query_sort :
    (∀ qs : List (String × String),
      (sortBy qpLt qs).Perm qs ∧
      (sortBy qpLt qs).Pairwise (fun a b => qpLt b a = false) ∧
      buildCanonicalQueryString qs =
        (if qs.isEmpty then ""
         else String.intercalate "&" ((sortBy qpLt qs).map
           (fun p => p.1 ++ "=" ++ fixedEncodeURIComponent p.2)))) ∧
    buildCanonicalQueryString [("a", "1"), ("A", "2")] = "A=2&a=1" := by
  refine ⟨?_, rfl⟩
  intro qs
  refine ⟨perm_sortBy qpLt qs,
    @pairwise_sortBy _ qpLt (fun a b h => qpLt_asymm h)
      (fun a b c h1 h2 => qpLt_trans h1 h2) qs, ?_⟩
  cases qs with
  | nil => rfl
  | cons q qs => rfl

/-- Every record in the sorted canonical-header list carries, in its
`name` field, the lowercasing of its original-case `oName`. -/
theorem name_eq_toLower_of_mem {hs : List (String × String)} {h : CHdr}
    (hmem : h ∈ sortBy chLt (hs.map toCHdr)) : h.name = jsToLower h.oName := by
  have hm := (perm_sortBy chLt (hs.map toCHdr)).mem_iff.mp hmem
  obtain ⟨p, _, rfl⟩ := List.mem_map.mp hm
  rfl

/-- Claim C6: the canonical-headers block is one line
`lowercased-name:value\n` per header, the value trimmed of leading and
trailing whitespace with internal runs collapsed to one space, the lines
ordered as a permutation of the headers sorted ascending by original-case
name (value tie-break); `X-Custom: "  a   b  "` gives `x-custom:a b\n`. -/
theorem c6_canonical_headers :
    (∀ hs : List (String × String),
      (sortBy chLt (hs.map toCHdr)).Perm (hs.map toCHdr) ∧
      (sortBy chLt (hs.map toCHdr)).Pairwise (fun a b => chLt b a = false) ∧
      buildCanonicalHeaders hs =
        String.join ((sortBy chLt (hs.map toCHdr)).map
          (fun h => jsToLower h.oName ++ ":" ++ jsCollapseWs (jsTrim h.value) ++ "\n"))) ∧
    buildCanonicalHeaders [("X-Custom", "  a   b  ")] = "x-custom:a b\n" := by
  refine ⟨?_, rfl⟩
  intro hs
  refine ⟨perm_sortBy chLt (hs.map toCHdr),
    @pairwise_sortBy _ chLt (fun a b h => chLt_asymm h)
      (fun a b c h1 h2 => chLt_trans h1 h2) (hs.map toCHdr), ?_⟩
  show (sortBy chLt (hs.map toCHdr)).foldl
      (fun prev curr => prev ++ curr.name ++ ":" ++ jsCollapseWs (jsTrim curr.value) ++ "\n") "" = _
  have hfun : (fun (prev : String) (curr : CHdr) =>
        prev ++ curr.name ++ ":" ++ jsCollapseWs (jsTrim curr.value) ++ "\n") =
      (fun (prev : String) (curr : CHdr) =>
        prev ++ (curr.name ++ ":" ++ jsCollapseWs (jsTrim curr.value) ++ "\n")) := by
    funext prev curr
    simp [String.append_assoc]
  rw [hfun, foldl_lines_eq_join (fun curr : CHdr =>
    curr.name ++ ":" ++ jsCollapseWs (jsTrim curr.value) ++ "\n")]
  exact congrArg String.join (List.map_congr_left
    (fun h hmem => by rw [name_eq_toLower_of_mem hmem]))

/-- Claim C1: on a config that passes validation, the returned
`authHeader` is exactly
`AWS4-HMAC-SHA256 Credential=<accessKey>/<credentialScope>, SignedHeaders=<list>, Signature=<signature>`,
and the SignedHeaders component is recomputed over the final (pre-auth)
header set — the same `buildCanonicalSignedHeaders (preAuthHeaders E cfg)`
that stands as the fifth newline-joined component of the canonical
request that was hashed. -/
theorem c1_authorization_header {W : Type} (P : CryptoPrim W) (E : Externals)
    (cfg : SignConfig) (h : findMissingProp cfg = none) :
    ∃ parts, buildSigningParts P E cfg = .ok parts ∧
      parts.authHeader =
        "AWS4-HMAC-SHA256 Credential=" ++ cfg.accessKey.strD ++ "/" ++
          buildCredentialScope (resolvedDatetime E cfg) cfg.region.strD (resolvedService cfg) ++
          ", SignedHeaders=" ++ buildCanonicalSignedHeaders (preAuthHeaders E cfg) ++
          ", Signature=" ++ parts.signature ∧
      parts.canonicalRequest =
        jsToUpper cfg.method.strD ++ "\n" ++
          buildCanonicalUri (resolvedPath E cfg) ++ "\n" ++
          buildCanonicalQueryString (resolvedParams cfg) ++ "\n" ++
          buildCanonicalHeaders (preAuthHeaders E cfg) ++ "\n" ++
          buildCanonicalSignedHeaders (preAuthHeaders E cfg) ++ "\n" ++
          buildHashedPayload P (resolvedPayload E cfg) :=
  ⟨signingPartsOf P E cfg, buildSigningParts_eq_ok P E h, rfl, rfl⟩

/-- Witness for C1 at a concrete valid config and concrete externals. -/
theorem c1_authorization_header_witness :
    ∃ parts, buildSigningParts tagCrypto tagExternals validConfig = .ok parts ∧
      parts.authHeader =
        "AWS4-HMAC-SHA256 Credential=" ++ validConfig.accessKey.strD ++ "/" ++
          buildCredentialScope (resolvedDatetime tagExternals validConfig)
            validConfig.region.strD (resolvedService validConfig) ++
          ", SignedHeaders=" ++
          buildCanonicalSignedHeaders (preAuthHeaders tagExternals validConfig) ++
          ", Signature=" ++ parts.signature ∧
      parts.canonicalRequest =
        jsToUpper validConfig.method.strD ++ "\n" ++
          buildCanonicalUri (resolvedPath tagExternals validConfig) ++ "\n" ++
          buildCanonicalQueryString (resolvedParams validConfig) ++ "\n" ++
          buildCanonicalHeaders (preAuthHeaders tagExternals validConfig) ++ "\n" ++
          buildCanonicalSignedHeaders (preAuthHeaders tagExternals validConfig) ++ "\n" ++
          buildHashedPayload tagCrypto (resolvedPayload tagExternals validConfig) :=
  c1_authorization_header tagCrypto tagExternals validConfig rfl

/-- Claim C8: when some required field is absent, `buildSigningParts`
fails with the missing-configuration error naming a missing field and
produces no result (the functional model returns `Except.error`, so no
header mapping is produced). -/
theorem c8_missing_field_error {W : Type} (P : CryptoPrim W) (E : Externals)
    (cfg : SignConfig) (h : ∃ p ∈ requiredProps, propIsUndef cfg p = true) :
    ∃ p, p ∈ requiredProps ∧ propIsUndef cfg p = true ∧
      buildSigningParts P E cfg =
        .error ("[SigV4]: missing config property \x27" ++ p ++ "\x27") := by
  have hfind : ∃ q, findMissingProp cfg = some q := by
    cases hf : findMissingProp cfg with
    | none =>
      exfalso
      obtain ⟨p, hp, hu⟩ := h
      unfold findMissingProp at hf
      exact (List.find?_eq_none.mp hf p hp) hu
    | some q => exact ⟨q, rfl⟩
  obtain ⟨q, hq⟩ := hfind
  have hq' := hq
  unfold findMissingProp at hq'
  refine ⟨q, List.mem_of_find?_eq_some hq', List.find?_some hq', ?_⟩
  unfold buildSigningParts
  rw [assertProps_eq, hq']

/-- Witness for C8: omitting `secretKey` produces the error naming it. -/
theorem c8_missing_field_error_witness :
    ∃ p, p ∈ requiredProps ∧ propIsUndef missingSecretConfig p = true ∧
      buildSigningParts tagCrypto tagExternals missingSecretConfig =
        .error ("[SigV4]: missing config property \x27" ++ p ++ "\x27") :=
  c8_missing_field_error tagCrypto tagExternals missingSecretConfig
    ⟨"secretKey", by decide, rfl⟩

/-- The date header is always present (case-insensitively) after the
date-resolution step. -/
theorem hasHeaderCI_headersWithDate (E : Externals) (cfg : SignConfig) :
    hasHeaderCI (headersWithDate E cfg) "x-amz-date" = true := by
  unfold headersWithDate
  cases hf : findDateHeader (resolvedHeaders0 cfg) with
  | some p =>
    unfold findDateHeader at hf
    have hmem := List.mem_of_find?_eq_some hf
    have hpred := List.find?_some hf
    exact List.any_eq_true.mpr ⟨p, hmem, hpred⟩
  | none =>
    rw [hasHeaderCI_setHeader]
    rw [show (jsToLower X_AMZ_DATE == "x-amz-date") = true from rfl, Bool.or_true]

/-- A header name other than the date header is present after the
date-resolution step only if the caller supplied it. -/
theorem hasHeaderCI_headersWithDate_other (E : Externals) (cfg : SignConfig)
    (n : String) (h0 : hasHeaderCI (resolvedHeaders0 cfg) n = false)
    (hn : (jsToLower X_AMZ_DATE == n) = false) :
    hasHeaderCI (headersWithDate E cfg) n = false := by
  unfold headersWithDate
  cases hf : findDateHeader (resolvedHeaders0 cfg) with
  | some p => exact h0
  | none =>
    rw [hasHeaderCI_setHeader, h0, hn]
    rfl

/-- The result headers are the pre-auth headers with the authorization
value written in last. -/
theorem signingPartsOf_headers {W : Type} (P : CryptoPrim W) (E : Externals)
    (cfg : SignConfig) :
    (signingPartsOf P E cfg).headers =
      setHeader (preAuthHeaders E cfg) AUTHORIZATION (signingPartsOf P E cfg).authHeader :=
  rfl

/-- Case-insensitive membership across the host/token injection steps. -/
theorem hasHeaderCI_preAuth (E : Externals) (cfg : SignConfig) (n : String) :
    hasHeaderCI (preAuthHeaders E cfg) n =
      ((hasHeaderCI (headersWithDate E cfg) n || (jsToLower HOST == n)) ||
        (match cfg.sessionToken with
         | JSVal.val _ => (jsToLower X_AMZ_SECURITY_TOKEN == n)
         | _ => false)) := by
  unfold preAuthHeaders
  rcases cfg.sessionToken with _ | _ | t
  · simp [hasHeaderCI_setHeader]
  · simp [hasHeaderCI_setHeader]
  · simp [hasHeaderCI_setHeader]

/-- Claim C9 (amended): after signing a valid config, the headers contain
a date header, a host header and an authorization header; and when the
caller's original headers contained no security-token header, the result
contains one exactly when `sessionToken` was supplied. -/
theorem c9_amended_header_invariant {W : Type} (P : CryptoPrim W) (E : Externals)
    (cfg : SignConfig) (h : findMissingProp cfg = none) :
    ∃ parts, buildSigningParts P E cfg = .ok parts ∧
      hasHeaderCI parts.headers "x-amz-date" = true ∧
      hasHeaderCI parts.headers "host" = true ∧
      hasHeaderCI parts.headers "authorization" = true ∧
      (hasHeaderCI (resolvedHeaders0 cfg) "x-amz-security-token" = false →
        (hasHeaderCI parts.headers "x-amz-security-token" = true ↔
          ∃ t, cfg.sessionToken = JSVal.val t)) := by
  refine ⟨signingPartsOf P E cfg, buildSigningParts_eq_ok P E h, ?_, ?_, ?_, ?_⟩
  · rw [signingPartsOf_headers, hasHeaderCI_setHeader, hasHeaderCI_preAuth,
      hasHeaderCI_headersWithDate]
    simp
  · rw [signingPartsOf_headers, hasHeaderCI_setHeader, hasHeaderCI_preAuth,
      show (jsToLower HOST == "host") = true from rfl]
    simp
  · rw [signingPartsOf_headers, hasHeaderCI_setHeader,
      show (jsToLower AUTHORIZATION == "authorization") = true from rfl, Bool.or_true]
  · intro h0
    rw [signingPartsOf_headers, hasHeaderCI_setHeader, hasHeaderCI_preAuth,
      show (jsToLower AUTHORIZATION == "x-amz-security-token") = false from rfl,
      show (jsToLower HOST == "x-amz-security-token") = false from rfl,
      hasHeaderCI_headersWithDate_other E cfg _ h0 rfl]
    rcases cfg.sessionToken with _ | _ | t
    · simp
    · simp
    · simp [show (jsToLower X_AMZ_SECURITY_TOKEN == "x-amz-security-token") = true from rfl]

/-- Witness for the amended C9 at a concrete valid config. -/
theorem c9_amended_header_invariant_witness :
    ∃ parts, buildSigningParts tagCrypto tagExternals validConfig = .ok parts ∧
      hasHeaderCI parts.headers "x-amz-date" = true ∧
      hasHeaderCI parts.headers "host" = true ∧
      hasHeaderCI parts.headers "authorization" = true ∧
      (hasHeaderCI (resolvedHeaders0 validConfig) "x-amz-security-token" = false →
        (hasHeaderCI parts.headers "x-amz-security-token" = true ↔
          ∃ t, validConfig.sessionToken = JSVal.val t)) :=
  c9_amended_header_invariant tagCrypto tagExternals validConfig rfl

/-- Counterexample to claim C9 as stated: a valid config whose caller
already supplied an `x-amz-security-token` header but no `sessionToken`
field still carries a security-token header after signing, so the
mapping contains a security-token header although `sessionToken` was not
supplied — refuting the stated "if and only if". -/
theorem c9_counterexample_preexisting_token :
    (∃ parts, buildSigningParts tagCrypto tagExternals tokenHeaderConfig = .ok parts ∧
      hasHeaderCI parts.headers "x-amz-security-token" = true) ∧
    tokenHeaderConfig.sessionToken = JSVal.undef := by
  refine ⟨⟨signingPartsOf tagCrypto tagExternals tokenHeaderConfig,
    buildSigningParts_eq_ok tagCrypto tagExternals rfl, ?_⟩, rfl⟩
  decide

/-- Claim C10: validation rejects a field only when it is `undefined`: a
present-but-empty (or `null`) `secretKey` passes validation and
`buildSigningParts` produces a signing result; in general every config
with no `undefined` required field produces a result. -/
theorem c10_validation_only_undefined :
    emptySecretConfig.secretKey = JSVal.val "" ∧
    (∃ parts, buildSigningParts tagCrypto tagExternals emptySecretConfig = .ok parts) ∧
    (∀ {W : Type} (P : CryptoPrim W) (E : Externals) (cfg : SignConfig),
      findMissingProp cfg = none → ∃ parts, buildSigningParts P E cfg = .ok parts) :=
  ⟨rfl, ⟨signingPartsOf tagCrypto tagExternals emptySecretConfig,
      buildSigningParts_eq_ok tagCrypto tagExternals rfl⟩,
    fun P E cfg h => ⟨signingPartsOf P E cfg, buildSigningParts_eq_ok P E h⟩⟩

/-- Witness for C10's general part: a `null` `secretKey` also passes
validation and yields a signing result. -/
theorem c10_validation_only_undefined_witness :
    ∃ parts, buildSigningParts tagCrypto tagExternals nullSecretConfig = .ok parts :=
  c10_validation_only_undefined.2.2 tagCrypto tagExternals nullSecretConfig rfl

end Sigv4
